import Mathlib

/-!
Verification of the markdown-to-Typst converter (`main.go`).

The program is modelled shallowly:

* Byte strings are modelled as `List Char` (the program only manipulates
  ASCII delimiters, so byte positions coincide with character positions).
* `splitFrontmatter` is translated directly from the Go source: the two
  tests with `strings.HasPrefix` become `isPrefixOf` tests, `findSubstr`
  mirrors `strings.Index`, and `dropBodyNewline` mirrors the conditional
  consumption of one LF, CR, or CR LF after the closing delimiter.
* The goldmark AST is modelled as an inductive `Node` tree following the
  data model of the specification (the parser itself is an external
  collaborator); the `ast.Walk` callback of `renderBody` is translated
  case by case into `walkCallback`, and `astWalk` performs the
  enter/children/exit traversal that `ast.Walk` performs with a callback
  that always returns `WalkContinue`.
* `writePageSetup` is translated write-by-write; the `%q` verb of the
  `fmt` package is modelled by `goQuote`.
* The driver `main` is modelled by `mainTransform`, parameterised over the
  external YAML decoder and markdown parser; aborting with exit status 1
  after a YAML unmarshalling error is modelled by the distinguished result
  `parseError`.
-/

/-- Byte strings of the program, modelled as lists of characters. -/
abbrev Bytes := List Char

/-- Model of Go `strings.Index`: index of the first occurrence of `pat`
in the string, `none` when absent (Go returns `-1`). -/
def findSubstr (pat : Bytes) : Bytes → Option Nat
  | [] => if pat.isPrefixOf ([] : Bytes) then some 0 else none
  | c :: s =>
    if pat.isPrefixOf (c :: s) then some 0
    else (findSubstr pat s).map (· + 1)

/-- The opening delimiter `"---\n"` tested by `strings.HasPrefix`. -/
def openLF : Bytes := "---\n".toList

/-- The opening delimiter `"---\r\n"` tested by `strings.HasPrefix`. -/
def openCRLF : Bytes := "---\r\n".toList

/-- The pattern `"\n---"` searched by `strings.Index` for the closing
delimiter. -/
def closingPat : Bytes := "\n---".toList

/-- The adjustment of `bodyStart` after skipping `"\n---"`: one `'\n'` is
consumed, or one `'\r'` optionally followed by `'\n'` (translated from the
two `if` statements on `rest[bodyStart]`). -/
def dropBodyNewline : Bytes → Bytes
  | '\n' :: r => r
  | '\r' :: '\n' :: r => r
  | '\r' :: r => r
  | r => r

/-- Translation of `splitFrontmatter` from `main.go`: returns
`(frontmatter, body)`; `none` models the `nil` frontmatter slice. -/
def splitFrontmatter (data : Bytes) : Option Bytes × Bytes :=
  if !(openLF.isPrefixOf data) && !(openCRLF.isPrefixOf data) then
    (none, data)
  else
    let rest := data.drop 4
    match findSubstr closingPat rest with
    | none => (none, data)
    | some idx =>
      (some (rest.take idx), dropBodyNewline (rest.drop (idx + 4)))

/-- The tree of the parsed body, following the data model of the
specification for the nodes that `renderBody` switches on; `other` stands
for every node kind the external parser may produce that has no case in
the switch (links, images, tables, block quotes, raw markup, ...), tagged
with its kind name. -/
inductive Node where
  | document (children : List Node)
  | heading (level : Nat) (children : List Node)
  | paragraph (children : List Node)
  | text (content : Bytes) (softBreak : Bool)
  | list (children : List Node)
  | listItem (children : List Node)
  | emphasis (level : Nat) (children : List Node)
  | thematicBreak
  | codeSpan (content : Bytes)
  | fencedCodeBlock (lines : List Bytes)
  | other (kind : String) (children : List Node)

/-- The ordered children of a node; leaf kinds have none. -/
def Node.children : Node → List Node
  | .document cs => cs
  | .heading _ cs => cs
  | .paragraph cs => cs
  | .text _ _ => []
  | .list cs => cs
  | .listItem cs => cs
  | .emphasis _ cs => cs
  | .thematicBreak => []
  | .codeSpan _ => []
  | .fencedCodeBlock _ => []
  | .other _ cs => cs

/-- Model of Go `strings.TrimRight(s, "\n")`: remove every trailing
newline character. -/
def trimRightNewlines (s : Bytes) : Bytes :=
  (s.reverse.dropWhile (· == '\n')).reverse

/-- Translation of the `ast.Walk` callback in `renderBody`, case by case
from the `switch`; the output of the callback for one `(node, entering)`
event. Kinds without a case in the `switch` (`document`, `other`) emit
nothing. -/
def walkCallback (n : Node) (entering : Bool) : Bytes :=
  match n with
  | .heading level _ =>
      if entering then
        "#heading(level: ".toList ++ (toString level).toList ++ ")[".toList
      else "]\n".toList ++ "\n".toList
  | .paragraph _ => if entering then [] else "\n".toList ++ "\n".toList
  | .text content softBreak =>
      if entering then content ++ (if softBreak then "\n".toList else [])
      else []
  | .list _ => if entering then [] else "\n".toList
  | .listItem _ => if entering then "- ".toList else "\n".toList
  | .emphasis level _ =>
      if level == 2 then
        if entering then "#strong[".toList else "]".toList
      else
        if entering then "#emph[".toList else "]".toList
  | .thematicBreak =>
      if entering then "#line(length: 100%)\n".toList ++ "\n".toList else []
  | .codeSpan content =>
      if entering then "#raw(\"".toList ++ content ++ "\")".toList else []
  | .fencedCodeBlock lines =>
      if entering then
        "```\n".toList ++ trimRightNewlines lines.flatten ++ "\n```\n\n".toList
      else []
  | .document _ => []
  | .other _ _ => []

mutual

/-- Translation of `ast.Walk` with the callback of `renderBody`: the
callback always returns `WalkContinue`, so every node produces its enter
event, then its children in order, then its exit event. -/
def astWalk : Node → Bytes
  | .document cs =>
      walkCallback (.document cs) true ++ walkKids cs ++
      walkCallback (.document cs) false
  | .heading l cs =>
      walkCallback (.heading l cs) true ++ walkKids cs ++
      walkCallback (.heading l cs) false
  | .paragraph cs =>
      walkCallback (.paragraph cs) true ++ walkKids cs ++
      walkCallback (.paragraph cs) false
  | .text c b =>
      walkCallback (.text c b) true ++ walkCallback (.text c b) false
  | .list cs =>
      walkCallback (.list cs) true ++ walkKids cs ++
      walkCallback (.list cs) false
  | .listItem cs =>
      walkCallback (.listItem cs) true ++ walkKids cs ++
      walkCallback (.listItem cs) false
  | .emphasis l cs =>
      walkCallback (.emphasis l cs) true ++ walkKids cs ++
      walkCallback (.emphasis l cs) false
  | .thematicBreak =>
      walkCallback .thematicBreak true ++ walkCallback .thematicBreak false
  | .codeSpan c =>
      walkCallback (.codeSpan c) true ++ walkCallback (.codeSpan c) false
  | .fencedCodeBlock ls =>
      walkCallback (.fencedCodeBlock ls) true ++
      walkCallback (.fencedCodeBlock ls) false
  | .other k cs =>
      walkCallback (.other k cs) true ++ walkKids cs ++
      walkCallback (.other k cs) false

/-- Traversal of a node list in order. -/
def walkKids : List Node → Bytes
  | [] => []
  | n :: ns => astWalk n ++ walkKids ns

end

/-- Translation of `renderBody`, parameterised over the external markdown
parser. -/
def renderBody (parseMd : Bytes → Node) (source : Bytes) : Bytes :=
  astWalk (parseMd source)

/-- One character under the Go `%q` string verb (`strconv.Quote`), for
the escape classes relevant here: backslash, double quote, and the common
control characters; other characters are passed through. -/
def goQuoteChar (c : Char) : Bytes :=
  if c == '\\' then ['\\', '\\']
  else if c == '"' then ['\\', '"']
  else if c == '\n' then ['\\', 'n']
  else if c == '\r' then ['\\', 'r']
  else if c == '\t' then ['\\', 't']
  else [c]

/-- Model of the Go `%q` verb on a string: a double-quoted Go string
literal with escaped contents. -/
def goQuote (s : Bytes) : Bytes :=
  '"' :: (s.map goQuoteChar).flatten ++ ['"']

/-- Translation of `writePageSetup` from `main.go`, write by write; each
`Fprintln` appends a final `"\n"`. -/
def writePageSetup (title : Bytes) : Bytes :=
  "#set page(paper: \"a4\")\n".toList ++
  "#set text(font: \"SimSun\", size: 12pt, lang: \"zh\")\n".toList ++
  "#set par(leading: 1.5em, first-line-indent: 2em)\n".toList ++
  "\n".toList ++
  (if title ≠ [] then
    "#let title = ".toList ++ goQuote title ++ "\n".toList ++
    "\n".toList ++
    "#align(center, text(size: 22pt, weight: \"bold\")[".toList ++ title ++
      "])\n".toList ++
    "#v(1em)\n".toList ++
    "\n".toList
  else [])

/-- The page-size directive (first fixed write of `writePageSetup`). -/
def pageSizeDirective : Bytes := "#set page(paper: \"a4\")\n".toList

/-- The text/font/language directive (second fixed write). -/
def textFontDirective : Bytes :=
  "#set text(font: \"SimSun\", size: 12pt, lang: \"zh\")\n".toList

/-- The paragraph-style directive (third fixed write). -/
def parStyleDirective : Bytes :=
  "#set par(leading: 1.5em, first-line-indent: 2em)\n".toList

/-- One blank output line. -/
def blankLine : Bytes := "\n".toList

/-- The named-value binding of the title, escaped with the Go `%q` verb. -/
def titleBinding (title : Bytes) : Bytes :=
  "#let title = ".toList ++ goQuote title ++ "\n".toList

/-- The centered, bold, large-text block wrapping the literal title. -/
def titleAlignBlock (title : Bytes) : Bytes :=
  "#align(center, text(size: 22pt, weight: \"bold\")[".toList ++ title ++
    "])\n".toList

/-- The vertical-spacing directive of the title block. -/
def verticalSpacing : Bytes := "#v(1em)\n".toList

/-- The metadata record decoded from the frontmatter; only `title` is
consumed (`Frontmatter` in `main.go`). The Go zero value has an empty
title. -/
structure Frontmatter where
  title : Bytes
deriving DecidableEq

/-- Outcome of one run of the transformation pipeline: the emitted output,
or the fatal abort (`os.Exit(1)` with a diagnostic on stderr) taken after
a YAML unmarshalling error. -/
inductive RunResult where
  | ok (output : Bytes)
  | parseError
deriving DecidableEq

/-- Translation of the pipeline in `main` (after flag handling and the
stdin read): split the frontmatter, pass it to the external YAML decoder
only when the extracted block is non-empty (`len(fm) > 0`), abort on a
decode error, and otherwise emit the page setup followed by the rendered
body; with an empty or absent block the zero-value record (empty title)
is used. The external collaborators are parameters: `decodeYaml` models
`yaml.Unmarshal` (`none` = error) and `parseMd` models the goldmark
parser. -/
def mainTransform (decodeYaml : Bytes → Option Frontmatter)
    (parseMd : Bytes → Node) (input : Bytes) : RunResult :=
  let split := splitFrontmatter input
  let fm := (split.1).getD []
  if fm.length > 0 then
    match decodeYaml fm with
    | none => .parseError
    | some meta =>
        .ok (writePageSetup meta.title ++ renderBody parseMd split.2)
  else
    .ok (writePageSetup [] ++ renderBody parseMd split.2)

/-- Modelled from the spec: the escaping "per the output format's
string-literal rules" that the specification requires for the code-span
text. In the output format, a double-quoted string escapes the backslash
and the double quote. `main.go` contains no such escaping for code spans
(it uses the plain `%s` verb); this definition only serves to state what
the specification sentence would require. -/
def typstEscapeString (s : Bytes) : Bytes :=
  (s.map fun c =>
    if c == '\\' then ['\\', '\\']
    else if c == '"' then ['\\', '"']
    else [c]).flatten

/-- Test fixture: a decoder that rejects every metadata block. -/
def decodeAlwaysFail : Bytes → Option Frontmatter := fun _ => none

/-- Test fixture: a decoder that accepts every metadata block with an
empty title. -/
def decodeAlwaysOk : Bytes → Option Frontmatter := fun _ => some ⟨[]⟩

/-- Test fixture: a parser returning an empty document. -/
def parseStub : Bytes → Node := fun _ => .document []

/-! ## Properties -/

example : splitFrontmatter "---\ntitle: x\n---\nbody".toList =
    (some "title: x".toList, "body".toList) := by decide
example : splitFrontmatter "no header".toList =
    (none, "no header".toList) := by decide
example : splitFrontmatter "---\nunterminated".toList =
    (none, "---\nunterminated".toList) := by decide
example : astWalk (.heading 2 [.text "Hi".toList false]) =
    "#heading(level: 2)[Hi]\n\n".toList := by decide
example : astWalk (.emphasis 2 [.text "x".toList false]) =
    "#strong[x]".toList := by decide
example : astWalk (.emphasis 1 [.text "x".toList false]) =
    "#emph[x]".toList := by decide
example : astWalk (.thematicBreak) = "#line(length: 100%)\n\n".toList := by
  decide
example : astWalk (.list [.listItem [.text "a".toList false]]) =
    "- a\n\n".toList := by decide

/-- A list is a prefix (in the executable sense) of itself followed by
anything. -/
theorem isPrefixOf_append_self (l t : Bytes) : l.isPrefixOf (l ++ t) = true := by
  rw [ List.isPrefixOf_iff_prefix]
  exact List.prefix_append l t

/-- A match of `"---"` against `m ++ '\n' :: rest` cannot use the `'\n'`,
so it already matches inside `m`. -/
theorem dashes_no_cross (m rest : Bytes)
    (h : (['-', '-', '-'] : Bytes).isPrefixOf (m ++ '\n' :: rest) = true) :
    (['-', '-', '-'] : Bytes).isPrefixOf m = true := by
  match m with
  | [] => simp [List.isPrefixOf] at h
  | [a] => simp [List.isPrefixOf] at h
  | [a, b] => simp [List.isPrefixOf] at h
  | a :: b :: c :: m' => simpa [List.isPrefixOf] using h

/-- When the closing pattern does not occur in `m`, its first occurrence
in `m ++ closingPat ++ rest` is exactly at position `m.length`: the
pattern `"\n---"` cannot match across the boundary, because its only
newline is its first character. -/
theorem findSubstr_append (m rest : Bytes)
    (h : findSubstr closingPat m = none) :
    findSubstr closingPat (m ++ (closingPat ++ rest)) = some m.length := by
  induction m with
  | nil =>
    have hp : closingPat.isPrefixOf (closingPat ++ rest) = true :=
      isPrefixOf_append_self _ _
    simp only [List.nil_append]
    rw [show (closingPat ++ rest) = '\n' :: ("---".toList ++ rest) from rfl]
    rw [findSubstr]
    rw [show ('\n' :: ("---".toList ++ rest)) = closingPat ++ rest from rfl, hp]
    simp
  | cons c m ih =>
    rw [findSubstr] at h
    by_cases hpre : closingPat.isPrefixOf (c :: m) = true
    · simp [hpre] at h
    · rw [Bool.not_eq_true] at hpre
      rw [hpre] at h
      simp only [Bool.false_eq_true, if_false] at h
      have hnone : findSubstr closingPat m = none := by simpa using h
      have ih' := ih hnone
      have hpre2 : closingPat.isPrefixOf (c :: (m ++ (closingPat ++ rest))) = false := by
        by_contra hcon
        rw [Bool.not_eq_false] at hcon
        rw [show closingPat.isPrefixOf (c :: (m ++ (closingPat ++ rest))) =
            (('\n' == c) && (['-', '-', '-'] : Bytes).isPrefixOf (m ++ (closingPat ++ rest)))
            from rfl] at hcon
        have hc := Bool.and_eq_true _ _ |>.mp hcon
        have hm : (['-', '-', '-'] : Bytes).isPrefixOf m = true := by
          apply dashes_no_cross m ("---".toList ++ rest)
          have h2 := hc.2
          rwa [show m ++ (closingPat ++ rest) = m ++ '\n' :: ("---".toList ++ rest) from by
            simp [closingPat]] at h2
        have hfull : closingPat.isPrefixOf (c :: m) = true := by
          show (('\n' == c) && (['-', '-', '-'] : Bytes).isPrefixOf m) = true
          rw [hc.1, hm]
          rfl
        rw [hfull] at hpre
        exact absurd hpre (by simp)
      rw [List.cons_append, findSubstr, hpre2]
      simp [ih']

/-- Matching inside a truncation matches inside the whole list. -/
theorem isPrefixOf_of_take (pat s : Bytes) (j : Nat)
    (h : pat.isPrefixOf (s.take j) = true) : pat.isPrefixOf s = true := by
  rw [ List.isPrefixOf_iff_prefix] at h ⊢
  exact h.trans ( List.take_prefix j s)

/-- Minimality of `findSubstr`: the pattern does not occur before the
index it returns. -/
theorem findSubstr_take (s : Bytes) (i : Nat)
    (h : findSubstr closingPat s = some i) :
    findSubstr closingPat (s.take i) = none := by
  induction s generalizing i with
  | nil =>
    rw [findSubstr] at h
    simp [closingPat, List.isPrefixOf] at h
  | cons c s ih =>
    rw [findSubstr] at h
    by_cases hpre : closingPat.isPrefixOf (c :: s) = true
    · rw [hpre] at h
      simp only [if_true] at h
      have : i = 0 := by simpa using h.symm
      subst this
      rw [List.take_zero]
      decide
    · rw [Bool.not_eq_true] at hpre
      rw [hpre] at h
      simp only [Bool.false_eq_true, if_false] at h
      cases hfs : findSubstr closingPat s with
      | none => rw [hfs] at h; simp at h
      | some j =>
        rw [hfs] at h
        have hij : i = j + 1 := by simpa using h.symm
        subst hij
        rw [List.take_succ_cons, findSubstr]
        have hpre2 : closingPat.isPrefixOf (c :: s.take j) = false := by
          by_contra hcon
          rw [Bool.not_eq_false] at hcon
          have : closingPat.isPrefixOf (c :: s) = true :=
            isPrefixOf_of_take closingPat (c :: s) (j + 1)
              (by rwa [List.take_succ_cons])
          rw [this] at hpre
          exact absurd hpre (by simp)
        rw [hpre2]
        simp [ih j hfs]

/-- Splitting an input assembled from an opening `"---\n"` line, interior
bytes free of the closing pattern, the closing `"\n---"`, and a remainder
returns exactly the interior bytes and the remainder with one leading
line break consumed. -/
theorem splitFrontmatter_assembled (meta rest : Bytes)
    (h : findSubstr closingPat meta = none) :
    splitFrontmatter (openLF ++ (meta ++ (closingPat ++ rest))) =
      (some meta, dropBodyNewline rest) := by
  rw [splitFrontmatter]
  rw [isPrefixOf_append_self openLF _]
  have hdrop : (openLF ++ (meta ++ (closingPat ++ rest))).drop 4 =
      meta ++ (closingPat ++ rest) := by
    rw [show (4 : Nat) = openLF.length from rfl]
    exact List.drop_left _ _
  simp only [Bool.not_true, Bool.false_and, Bool.false_eq_true, if_false, hdrop]
  rw [findSubstr_append meta rest h]
  have htake : (meta ++ (closingPat ++ rest)).take meta.length = meta :=
    List.take_left _ _
  have hdrop2 : (meta ++ (closingPat ++ rest)).drop (meta.length + 4) = rest := by
    rw [show meta ++ (closingPat ++ rest) = (meta ++ closingPat) ++ rest from by
      simp [List.append_assoc]]
    exact List.drop_left' (by simp [closingPat])
  dsimp only
  rw [htake, hdrop2]

/-- Every node is traversed as its enter event, its children in their
given order, then its exit event. -/
theorem astWalk_eq (n : Node) :
    astWalk n = walkCallback n true ++ walkKids n.children ++
      walkCallback n false := by
  cases n <;> simp [astWalk, Node.children, walkKids, walkCallback]

/-- C1 fails as stated. First input: `"---\n---\nbody"` begins with a
`---` line and its second line begins with `---`, so the claim requires
metadata present (the empty interior) and body `"body"`; the code instead
returns no metadata and the whole input as body, because `strings.Index`
starts searching for `"\n---"` only after the newline of the opening
delimiter. Second input: `"---\r\na\n---\nb"` opens with the CR LF
convention, so the claim requires metadata `"a"`; the code returns
`"\na"`, because `rest := s[4:]` skips only four bytes and keeps the LF
of the opening delimiter inside the metadata. -/
theorem splitFrontmatter_between_cex :
    splitFrontmatter "---\n---\nbody".toList ≠
      (some ([] : Bytes), "body".toList) ∧
    splitFrontmatter "---\n---\nbody".toList =
      (none, "---\n---\nbody".toList) ∧
    splitFrontmatter "---\r\na\n---\nb".toList ≠
      (some "a".toList, "b".toList) ∧
    splitFrontmatter "---\r\na\n---\nb".toList =
      (some "\na".toList, "b".toList) := by decide

/-- C1 (amended): for every input assembled as the LF opening delimiter
line `"---\n"`, then metadata bytes containing no occurrence of
`"\n---"`, then `"\n---"`, then a remainder, `splitFrontmatter` returns
exactly the metadata bytes, and the remainder with a single leading line
break (LF, CR, or CR LF) consumed as the body. (The original claim fails
for a CR LF opening delimiter, where the LF of the opening line is kept
inside the metadata, and when the first later `---` line is the second
line of the input or carries content after `---`.) -/
theorem splitFrontmatter_wellFormed (meta rest : Bytes)
    (h : findSubstr closingPat meta = none) :
    splitFrontmatter (openLF ++ (meta ++ (closingPat ++ rest))) =
      (some meta, dropBodyNewline rest) :=
  splitFrontmatter_assembled meta rest h

/-- Witness for the amended C1 at `"---\ntitle: x\n---\nbody"`. -/
theorem splitFrontmatter_wellFormed_witness :
    splitFrontmatter (openLF ++ ("title: x".toList ++
        (closingPat ++ "\nbody".toList))) =
      (some "title: x".toList, "body".toList) :=
  splitFrontmatter_wellFormed "title: x".toList "\nbody".toList (by decide)

/-- C5: a `(metadata, body)` pair produced by `splitFrontmatter` re-splits
identically from the reconstruction `"---\n" ++ metadata ++ "\n---\n" ++
body`: the metadata a split produces never contains `"\n---"` (it ends at
the first occurrence), so the reconstruction parses back to the same
pair. -/
theorem splitFrontmatter_idempotent (input fm body : Bytes)
    (h : splitFrontmatter input = (some fm, body)) :
    splitFrontmatter ("---\n".toList ++ (fm ++ ("\n---\n".toList ++ body))) =
      (some fm, body) := by
  have hshape : "\n---\n".toList ++ body = closingPat ++ ('\n' :: body) := by
    simp [closingPat]
  rw [splitFrontmatter] at h
  by_cases hg : (!(openLF.isPrefixOf input) && !(openCRLF.isPrefixOf input)) = true
  · rw [if_pos hg] at h
    simp at h
  · rw [Bool.not_eq_true] at hg
    rw [hg] at h
    simp only [Bool.false_eq_true, if_false] at h
    cases hfs : findSubstr closingPat (input.drop 4) with
    | none =>
      rw [hfs] at h
      simp at h
    | some idx =>
      rw [hfs] at h
      simp only [Prod.mk.injEq, Option.some.injEq] at h
      obtain ⟨hfm, hbody⟩ := h
      have hnone : findSubstr closingPat fm = none := by
        rw [← hfm]
        exact findSubstr_take _ idx hfs
      rw [hshape, show ("---\n".toList : Bytes) = openLF from rfl]
      rw [splitFrontmatter_assembled fm ('\n' :: body) hnone]
      exact rfl

/-- Witness for C5 at `"---\nt\n---\nb"`. -/
theorem splitFrontmatter_idempotent_witness :
    splitFrontmatter ("---\n".toList ++ ("t".toList ++
        ("\n---\n".toList ++ "b".toList))) =
      (some "t".toList, "b".toList) :=
  splitFrontmatter_idempotent "---\nt\n---\nb".toList "t".toList "b".toList
    (by decide)

/-- C6: when the input does not begin with an opening delimiter line (in
either line-ending convention), or the search for `"\n---"` after the
opening line finds nothing, the whole input is returned unchanged as body
with the metadata absent; no error exists on this path. -/
theorem splitFrontmatter_lenient (input : Bytes)
    (h : (openLF.isPrefixOf input = false ∧ openCRLF.isPrefixOf input = false) ∨
         findSubstr closingPat (input.drop 4) = none) :
    splitFrontmatter input = (none, input) := by
  rw [splitFrontmatter]
  by_cases hg : (!(openLF.isPrefixOf input) && !(openCRLF.isPrefixOf input)) = true
  · rw [if_pos hg]
  · rw [Bool.not_eq_true] at hg
    rw [hg]
    simp only [Bool.false_eq_true, if_false]
    rcases h with ⟨h1, h2⟩ | hfind
    · rw [h1, h2] at hg
      simp at hg
    · rw [hfind]

/-- Witness for C6: one input with no leading delimiter, and one with an
unterminated header. -/
theorem splitFrontmatter_lenient_witness :
    splitFrontmatter "plain body".toList = (none, "plain body".toList) :=
  splitFrontmatter_lenient "plain body".toList (Or.inl (by decide))

/-- C2 fails as stated: for the code span `a"b` the claim requires the
span text escaped per the string-literal rules of the output format
before being embedded in the quoted directive, which would give
`#raw("a\"b")`; the renderer uses the plain `%s` verb and emits
`#raw("a"b")` with the text unescaped. -/
theorem codeSpan_unescaped_cex :
    astWalk (.codeSpan "a\"b".toList) = "#raw(\"a\"b\")".toList ∧
    astWalk (.codeSpan "a\"b".toList) ≠
      "#raw(\"".toList ++ typstEscapeString "a\"b".toList ++ "\")".toList := by
  decide

/-- C2 (amended): for every `CodeSpan` node the renderer emits on enter a
single raw-inline directive whose quoted string embeds the span text
verbatim, with no escaping, and emits nothing on exit. -/
theorem codeSpan_directive (content : Bytes) :
    walkCallback (.codeSpan content) true =
      "#raw(\"".toList ++ content ++ "\")".toList ∧
    walkCallback (.codeSpan content) false = [] :=
  ⟨rfl, rfl⟩

/-- C3: a body node whose kind has no case in the switch emits nothing on
either event; the walk of such a node is still the ordinary
enter/children/exit traversal, and no error, log, or abort path exists
(the callback is total and always returns `WalkContinue` with a `nil`
error, modelled by `astWalk` being a total function). -/
theorem unsupported_no_directive (kind : String) (cs : List Node)
    (entering : Bool) :
    walkCallback (.other kind cs) entering = [] ∧
    astWalk (.other kind cs) =
      walkCallback (.other kind cs) true ++ walkKids cs ++
        walkCallback (.other kind cs) false :=
  ⟨rfl, by rw [astWalk]⟩

/-- C10: dropping an unsupported node never drops its subtree: the output
of an unsupported node is exactly the traversal of its children in their
given order, so supported descendants (here a text run and a strong
emphasis inside a link) are still rendered. -/
theorem unsupported_subtree_rendered (kind : String) (cs : List Node) :
    astWalk (.other kind cs) = walkKids cs ∧
    (∀ (n : Node) (ns : List Node),
      walkKids (n :: ns) = astWalk n ++ walkKids ns) ∧
    astWalk (.other "Link" [.text "hi".toList false,
      .emphasis 2 [.text "x".toList false]]) = "hi#strong[x]".toList := by
  refine ⟨?_, fun n ns => rfl, by decide⟩
  simp [astWalk, walkCallback]

/-- C4: `writePageSetup` always emits, in order, the page-size directive,
the text/font/language directive, the paragraph-style directive, and a
blank line, independent of input; exactly when the title is non-empty it
additionally emits the escaped named-value binding of the title, a blank
line, the centered bold large-text block wrapping the literal title, the
vertical-spacing directive, and a blank line. -/
theorem writePageSetup_structure (title : Bytes) :
    writePageSetup title =
      pageSizeDirective ++ textFontDirective ++ parStyleDirective ++
        blankLine ++
      (if title = [] then []
       else titleBinding title ++ blankLine ++ titleAlignBlock title ++
         verticalSpacing ++ blankLine) := by
  by_cases h : title = [] <;>
    simp [writePageSetup, pageSizeDirective, textFontDirective,
      parStyleDirective, blankLine, titleBinding, titleAlignBlock,
      verticalSpacing, h]

/-- C7: the pipeline aborts with the fatal parse error exactly when the
extracted metadata block is non-empty and the external decoder rejects
it; and when the block is empty or absent the decoder is never consulted
(the outcome does not depend on it at all), so no parse error can occur. -/
theorem mainTransform_abort_iff (decodeYaml : Bytes → Option Frontmatter)
    (parseMd : Bytes → Node) (input : Bytes) :
    (mainTransform decodeYaml parseMd input = RunResult.parseError ↔
      ((splitFrontmatter input).1.getD []).length > 0 ∧
        decodeYaml ((splitFrontmatter input).1.getD []) = none) ∧
    (∀ decodeOther : Bytes → Option Frontmatter,
      (splitFrontmatter input).1.getD [] = [] →
      mainTransform decodeYaml parseMd input =
        mainTransform decodeOther parseMd input) := by
  constructor
  · by_cases hlen : ((splitFrontmatter input).1.getD []).length > 0
    · cases hdec : decodeYaml ((splitFrontmatter input).1.getD []) with
      | none => simp [mainTransform, hlen, hdec]
      | some meta => simp [mainTransform, hlen, hdec]
    · simp [mainTransform, hlen]
  · intro decodeOther hempty
    simp [mainTransform, hempty]

/-- Witness for C7: a present, non-empty, rejected metadata block aborts;
with no metadata block the decoder is irrelevant. -/
theorem mainTransform_abort_iff_witness :
    mainTransform decodeAlwaysFail parseStub "---\nx\n---\n".toList =
      RunResult.parseError ∧
    mainTransform decodeAlwaysFail parseStub "body".toList =
      mainTransform decodeAlwaysOk parseStub "body".toList :=
  ⟨(mainTransform_abort_iff decodeAlwaysFail parseStub _).1.mpr (by decide),
   (mainTransform_abort_iff decodeAlwaysFail parseStub _).2 decodeAlwaysOk
     (by decide)⟩

/-- C8: a fenced code block emits on enter the opening fence, the lines
of the block concatenated with the trailing newlines trimmed from the
very end, the closing fence, and a blank line, and nothing on exit; in
particular the source lines `"a\n"` and `"b\n"` produce exactly `a`,
newline, `b` between the fence markers. -/
theorem fencedCodeBlock_directive (lines : List Bytes) :
    walkCallback (.fencedCodeBlock lines) true =
      "```\n".toList ++ trimRightNewlines lines.flatten ++
        "\n```\n\n".toList ∧
    walkCallback (.fencedCodeBlock lines) false = [] ∧
    astWalk (.fencedCodeBlock ["a\n".toList, "b\n".toList]) =
      "```\na\nb\n```\n\n".toList :=
  ⟨rfl, rfl, by decide⟩

/-- C9: a heading of level `L` emits on enter the heading directive
opener carrying `L` and wrapping its content, and on exit the closing
bracket followed by one blank line; shown in general and at level 2. -/
theorem heading_directive (level : Nat) (cs : List Node) :
    walkCallback (.heading level cs) true =
      "#heading(level: ".toList ++ (toString level).toList ++ ")[".toList ∧
    walkCallback (.heading level cs) false = "]\n\n".toList ∧
    astWalk (.heading level cs) =
      walkCallback (.heading level cs) true ++ walkKids cs ++
        walkCallback (.heading level cs) false ∧
    astWalk (.heading 2 [.text "Hi".toList false]) =
      "#heading(level: 2)[Hi]\n\n".toList :=
  ⟨rfl, rfl, by rw [astWalk], by decide⟩
